import Mathlib

/-!
Verification of the minimal-clipboard history engine.

The definitions below are a shallow embedding of the JavaScript sources:
the optimized Electron main process (text policy, LRU cache, history
store, memory governor) and the optimized-history module (signature
engine, thumbnail scaling).  JavaScript strings are modelled as lists of
UTF-16 code units (`JSStr`); JavaScript numbers that are used as sizes,
lengths and timestamps are modelled as `Nat`; the thumbnail scale
arithmetic, which the source performs in floating point, is modelled in
exact rationals.  External libraries (zlib, Buffer UTF-8/base64
conversion) are not part of the repository; they enter as explicit codec
parameters, and the round-trip theorems assume their documented
contracts as hypotheses.
-/

namespace MinimalClipboard

/-- A JavaScript string, as its list of UTF-16 code units. -/
abbrev JSStr := List Nat

/-- Code units of a Lean string literal (used for the fixed markers of the
source; all their characters are in the BMP, so code point = code unit). -/
def strU (s : String) : JSStr := s.data.map Char.toNat

/-- `MAX_TEXT_SIZE` (50KB text limit). -/
def MAX_TEXT_SIZE : Nat := 50000

/-- `COMPRESSION_THRESHOLD` (compress text larger than 10KB). -/
def COMPRESSION_THRESHOLD : Nat := 10000

/-- `MEMORY_CLEANUP_COOLDOWN` (5 minutes between cleanups, in ms). -/
def MEMORY_CLEANUP_COOLDOWN : Nat := 300000

/-- `MAX_HISTORY_SIZE` (history bound used by the memory cleanup). -/
def MAX_HISTORY_SIZE : Nat := 50

/-- `DEFAULT_SETTINGS.maxHistory`. -/
def DEFAULT_MAX_HISTORY : Nat := 20

/-- The visible marker appended by `truncateText`. -/
def TRUNCATION_MARKER : JSStr := strU "\n\n[... text truncated for memory optimization]"

/-- `truncateText(text)`: texts of length at most `MAX_TEXT_SIZE` pass
through; longer texts keep their first `MAX_TEXT_SIZE` code units and the
marker is appended.  (The `!text || typeof text !== 'string'` guard of the
source returns the short empty string unchanged, which coincides with the
length test here.) -/
def truncateText (t : JSStr) : JSStr :=
  if t.length ≤ MAX_TEXT_SIZE then t
  else t.take MAX_TEXT_SIZE ++ TRUNCATION_MARKER

/-- The external byte-level codecs used by `compressText`/`decompressText`:
`Buffer.from(text, 'utf8')` / `.toString('utf8')`, `zlib.deflateSync` /
`zlib.inflateSync`, and `Buffer.prototype.toString('base64')` /
`Buffer.from(data, 'base64')`.  They are third-party library code, not part
of this repository, so they are parameters of the embedding. -/
structure Codecs where
  utf8Encode : JSStr → List Nat
  utf8Decode : List Nat → JSStr
  deflate : List Nat → List Nat
  inflate : List Nat → List Nat
  b64Encode : List Nat → JSStr
  b64Decode : JSStr → List Nat

/-- The object `{compressed: true, data, originalSize, compressedSize}`
produced by `compressText`. -/
structure TextBlob where
  compressed : Bool
  data : JSStr
  originalSize : Nat
  compressedSize : Nat
deriving DecidableEq, Repr

/-- A stored text value: either a plain JavaScript string or the
compressed blob object. -/
inductive TextVal where
  | str (s : JSStr)
  | blob (b : TextBlob)
deriving DecidableEq, Repr

/-- `compressText(text)`: strings that are empty (falsy) or shorter than
`COMPRESSION_THRESHOLD` are returned unchanged; larger strings are
UTF-8-encoded, deflated, and stored base64-encoded together with the byte
sizes.  (The `catch` branch, which would also return the text unchanged,
is unreachable for the total codec parameters.) -/
def compressText (c : Codecs) (t : JSStr) : TextVal :=
  if t = [] ∨ t.length < COMPRESSION_THRESHOLD then .str t
  else
    let input := c.utf8Encode t
    let compressed := c.deflate input
    .blob ⟨true, c.b64Encode compressed, input.length, compressed.length⟩

/-- `decompressText(compressedData)`: plain strings (and falsy values such
as the empty string) are returned unchanged; objects with truthy
`compressed` and nonempty `data` are base64-decoded, inflated and decoded
back to a string; any other object is returned unchanged. -/
def decompressText (c : Codecs) : TextVal → TextVal
  | .str s => .str s
  | .blob b =>
    if b.compressed = true ∧ b.data ≠ [] then
      .str (c.utf8Decode (c.inflate (c.b64Decode b.data)))
    else .blob b

/-- `processText(text)`: truncate, then compress.  The falsy guard returns
the empty string unchanged. -/
def processText (c : Codecs) (t : JSStr) : TextVal :=
  if t = [] then .str t else compressText c (truncateText t)

/-- Decimal digits of a number coerced to a string, as in
`number + 'suffix'` in JavaScript. -/
def natToStr (n : Nat) : JSStr := strU (toString n)

/-- `create_text_signature(text)` of the optimized-history module:
`text.length + '_' + text.substring(0, 100)`. -/
def create_text_signature (t : JSStr) : JSStr :=
  natToStr t.length ++ strU "_" ++ t.take 100

/-- One lowercase hex digit code unit. -/
def hexDigitCode (n : Nat) : Nat := if n < 10 then 48 + n else 87 + n

/-- Hex rendering of one byte (bytes of a Buffer are below 256). -/
def byteToHex (b : Nat) : JSStr := [hexDigitCode (b / 16 % 16), hexDigitCode (b % 16)]

/-- `buffer.slice(0, 16).toString('hex')`. -/
def bufferHexPrefix (buffer : List Nat) : JSStr := (buffer.take 16).flatMap byteToHex

/-- `create_image_signature(native_image)` of the optimized-history
module: dimensions, PNG byte length, and the hex of the first 16 bytes. -/
def create_image_signature (width height : Nat) (buffer : List Nat) : JSStr :=
  natToStr width ++ strU "x" ++ natToStr height ++ strU "_" ++
    natToStr buffer.length ++ strU "_" ++ bufferHexPrefix buffer

/-- The interim image signature of the polling loop in the optimized main:
`'image:' + width + 'x' + height` (dimensions only). -/
def monitorImageSignature (width height : Nat) : JSStr :=
  strU "image:" ++ natToStr width ++ strU "x" ++ natToStr height

/-- `MAX_THUMBNAIL_SIZE` of the optimized-history module. -/
def MAX_THUMBNAIL_SIZE : Nat := 150

/-- The dimension computation of `create_optimized_thumbnail`: scale both
dimensions by `min(maxDim/width, maxDim/height)` when either exceeds
`MAX_THUMBNAIL_SIZE`, rounding each (`Math.round`); otherwise keep them.
The source computes the scale in floating point; it is modelled in exact
rationals. -/
def create_optimized_thumbnail_dims (width height : Nat) : Nat × Nat :=
  if MAX_THUMBNAIL_SIZE < width ∨ MAX_THUMBNAIL_SIZE < height then
    let r : ℚ := min ((MAX_THUMBNAIL_SIZE : ℚ) / width) ((MAX_THUMBNAIL_SIZE : ℚ) / height)
    ((round ((width : ℚ) * r)).toNat, (round ((height : ℚ) * r)).toNat)
  else (width, height)

/-- The thumbnail-scaling rule as the specification words it: compute
`scale = min(maxDim/width, maxDim/height)` and apply it only if either
dimension exceeds `maxDim`. -/
def spec_thumbnail_dims (maxDim width height : Nat) : Nat × Nat :=
  if maxDim < width ∨ maxDim < height then
    let scale : ℚ := min ((maxDim : ℚ) / width) ((maxDim : ℚ) / height)
    ((round ((width : ℚ) * scale)).toNat, (round ((height : ℚ) * scale)).toNat)
  else (width, height)

/-- One entry of `clipboardHistory`.  Text entries store the processed
text (plain or compressed); image entries store the resource identifiers
and the interim signature.  File paths are opaque tokens. -/
inductive HistItem where
  | text (text : TextVal) (timestamp : Nat)
  | image (id filePath : JSStr) (width height : Nat) (thumbPath signature : JSStr)
      (timestamp : Nat)
deriving DecidableEq, Repr

/-- The key of the LRU cache: `'text_' + text.substring(0, 100)` or
`'image_' + signature` (the constructors model the two prefixes). -/
inductive CacheKey where
  | textKey (p : JSStr)
  | imageKey (sig : JSStr)
deriving DecidableEq, Repr

/-- One value of the LRU cache map: `{item, accessCount, lastAccessed}`. -/
structure CacheEntry where
  item : HistItem
  accessCount : Nat
  lastAccessed : Nat
deriving DecidableEq, Repr

/-- The `LRUCache` of the optimized main: an insertion-ordered map from
keys to entries plus the access-order array. -/
structure LRUCache where
  maxSize : Nat
  cache : List (CacheKey × CacheEntry)
  accessOrder : List CacheKey
deriving DecidableEq, Repr

/-- `new LRUCache(n)`. -/
def emptyLRU (n : Nat) : LRUCache := ⟨n, [], []⟩

/-- `Map.prototype.get`. -/
def assocGet (k : CacheKey) : List (CacheKey × CacheEntry) → Option CacheEntry
  | [] => none
  | (k2, e) :: rest => if k2 = k then some e else assocGet k rest

/-- `Map.prototype.set` on a key already present (updates in place,
keeping the insertion position). -/
def assocSet (k : CacheKey) (e : CacheEntry) :
    List (CacheKey × CacheEntry) → List (CacheKey × CacheEntry)
  | [] => []
  | (k2, e2) :: rest => if k2 = k then (k2, e) :: rest else (k2, e2) :: assocSet k e rest

/-- `Map.prototype.delete`. -/
def assocDel (k : CacheKey) : List (CacheKey × CacheEntry) → List (CacheKey × CacheEntry)
  | [] => []
  | (k2, e2) :: rest => if k2 = k then rest else (k2, e2) :: assocDel k rest

/-- `moveToEnd(key)`: splice the key out of the access order and push it,
when present. -/
def moveToEnd (k : CacheKey) (order : List CacheKey) : List CacheKey :=
  if k ∈ order then order.erase k ++ [k] else order

/-- The on-disk files referenced by an item: `filePath` and `thumbPath`
of an image when truthy (deleted by the eviction/cleanup paths). -/
def imageFilesOf : HistItem → List JSStr
  | .text _ _ => []
  | .image _ fp _ _ tp _ _ =>
    (if fp ≠ [] then [fp] else []) ++ (if tp ≠ [] then [tp] else [])

/-- `LRUCache.prototype.get`: returns the item and bumps the entry's
access statistics and position. -/
def lruGet (now : Nat) (k : CacheKey) (c : LRUCache) : Option HistItem × LRUCache :=
  match assocGet k c.cache with
  | none => (none, c)
  | some e =>
    (some e.item,
      { c with
        cache := assocSet k { e with lastAccessed := now, accessCount := e.accessCount + 1 } c.cache,
        accessOrder := moveToEnd k c.accessOrder })

/-- `LRUCache.prototype.evictLRU`: drop the least-recently-used key and
report the image files its cached item references (the source unlinks
them). -/
def evictLRU (c : LRUCache) : LRUCache × List JSStr :=
  match c.accessOrder with
  | [] => (c, [])
  | lruKey :: rest =>
    let doomed := match assocGet lruKey c.cache with
      | some e => imageFilesOf e.item
      | none => []
    ({ c with cache := assocDel lruKey c.cache, accessOrder := rest }, doomed)

/-- `LRUCache.prototype.set`: update an existing key in place, or append
a new one and evict when over capacity; reports files to unlink. -/
def lruSet (now : Nat) (k : CacheKey) (item : HistItem) (c : LRUCache) :
    LRUCache × List JSStr :=
  match assocGet k c.cache with
  | some e =>
    ({ c with
        cache := assocSet k ⟨item, e.accessCount + 1, now⟩ c.cache,
        accessOrder := moveToEnd k c.accessOrder }, [])
  | none =>
    let c2 : LRUCache :=
      { c with cache := c.cache ++ [(k, ⟨item, 1, now⟩)], accessOrder := c.accessOrder ++ [k] }
    if c2.maxSize < c2.cache.length then evictLRU c2 else (c2, [])

/-- `LRUCache.prototype.clear`: report the image files of all cached
items (the source unlinks them) and empty the cache. -/
def lruClear (c : LRUCache) : LRUCache × List JSStr :=
  ({ c with cache := [], accessOrder := [] },
    c.cache.flatMap fun p => imageFilesOf p.2.item)

/-- The mutable state of the optimized main process that the claims are
about: the history, the duplicate-detection sets, the LRU cache, the
`maxHistory` setting, the cleanup cooldown stamp, the image-store
directory contents, the ordered log of successful unlinks, and the
persisted copy of the history (`store.get/set('clipboardHistory')`). -/
structure AppState where
  clipboardHistory : List HistItem
  textCache : List TextVal
  imageCache : List JSStr
  clipboardCache : LRUCache
  maxHistory : Nat
  lastMemoryCleanup : Nat
  files : List JSStr
  deletionLog : List JSStr
  persisted : List HistItem
deriving DecidableEq, Repr

/-- The state at first launch. -/
def initState : AppState :=
  { clipboardHistory := [], textCache := [], imageCache := []
    clipboardCache := emptyLRU 30, maxHistory := DEFAULT_MAX_HISTORY
    lastMemoryCleanup := 0, files := [], deletionLog := [], persisted := [] }

/-- `getMaxHistory()`: the configured capacity, falling back to the
default for non-positive values. -/
def getMaxHistory (s : AppState) : Nat :=
  if 0 < s.maxHistory then s.maxHistory else DEFAULT_MAX_HISTORY

/-- `deleteFileQuiet(filePath)`: unlink if the file exists, recording the
successful deletion; missing files are a silent no-op. -/
def deleteFileQuiet (fp : JSStr) (s : AppState) : AppState :=
  if fp ∈ s.files then
    { s with files := s.files.erase fp, deletionLog := s.deletionLog ++ [fp] }
  else s

/-- Unlink a list of files in order. -/
def deleteFiles (fps : List JSStr) (s : AppState) : AppState :=
  fps.foldl (fun st f => deleteFileQuiet f st) s

/-- `Set.prototype.add` (insertion-ordered, no duplicates). -/
def setAdd {α : Type} [DecidableEq α] (v : α) (l : List α) : List α :=
  if v ∈ l then l else l ++ [v]

/-- The argument of `addToHistory`: the raw item assembled by the
clipboard monitor. -/
inductive ClipItem where
  | textItem (text : JSStr)
  | imageItem (id filePath : JSStr) (width height : Nat) (thumbPath signature : JSStr)
deriving DecidableEq, Repr

/-- The LRU key computed at the top of `addToHistory`. -/
def cacheKeyOf : ClipItem → CacheKey
  | .textItem t => .textKey (t.take 100)
  | .imageItem _ _ _ _ _ sig => .imageKey sig

/-- The predicate of the `findIndex` inside `removeDuplicateText`:
`h.type === 'text' && h.text === text` — strict equality of the stored
text value against the raw string (a compressed blob is never `===` a
string). -/
def isTextMatch (t : JSStr) : HistItem → Bool := fun h =>
  match h with
  | .text tv _ => decide (tv = .str t)
  | _ => false

/-- `removeDuplicateText(text)`: when the text cache holds the raw text,
splice out the first history entry whose stored text is (`===`) that raw
string and drop it from the cache. -/
def removeDuplicateText (t : JSStr) (s : AppState) : AppState :=
  if TextVal.str t ∈ s.textCache then
    match s.clipboardHistory.findIdx? (isTextMatch t) with
    | some i =>
      { s with
        clipboardHistory := s.clipboardHistory.eraseIdx i,
        textCache := s.textCache.erase (.str t) }
    | none => s
  else s

/-- `removeDuplicateImage(item)`: remove by signature when it is cached,
otherwise fall back to the first entry with the same dimensions; the
removed entry's files are unlinked. -/
def removeDuplicateImage (width height : Nat) (sig : JSStr) (s : AppState) : AppState :=
  if sig ≠ [] ∧ sig ∈ s.imageCache then
    match s.clipboardHistory.findIdx? (fun h => match h with
      | .image _ _ _ _ _ hsig _ => decide (hsig = sig)
      | _ => false) with
    | some i =>
      match s.clipboardHistory[i]? with
      | some old =>
        let s2 := deleteFiles (imageFilesOf old) s
        { s2 with
          clipboardHistory := s2.clipboardHistory.eraseIdx i,
          imageCache := s2.imageCache.erase sig }
      | none => s
    | none => s
  else
    match s.clipboardHistory.findIdx? (fun h => match h with
      | .image _ _ w2 h2 _ _ _ => decide (w2 = width ∧ h2 = height)
      | _ => false) with
    | some i =>
      match s.clipboardHistory[i]? with
      | some old =>
        let s2 := deleteFiles (imageFilesOf old) s
        let s3 := { s2 with clipboardHistory := s2.clipboardHistory.eraseIdx i }
        match old with
        | .image _ _ _ _ _ osig _ =>
          if osig ≠ [] then { s3 with imageCache := s3.imageCache.erase osig } else s3
        | _ => s3
      | none => s
    | none => s

/-- The per-evicted-item cleanup of the capacity trim at the end of
`addToHistory`: unlink both image files and drop the cache entries. -/
def evictOne (s : AppState) (i : HistItem) : AppState :=
  match i with
  | .image _ fp _ _ tp sig _ =>
    let s1 := if fp ≠ [] then deleteFileQuiet fp s else s
    let s2 := if tp ≠ [] then deleteFileQuiet tp s1 else s1
    if sig ≠ [] then { s2 with imageCache := s2.imageCache.erase sig } else s2
  | .text tv _ => { s with textCache := s.textCache.erase tv }

/-- The tail of `addToHistory`: evict past the capacity, then persist the
history (`store.set('clipboardHistory', ...)`). -/
def trimAndPersist (s : AppState) : AppState :=
  let s2 :=
    if getMaxHistory s < s.clipboardHistory.length then
      let toRemove := s.clipboardHistory.drop (getMaxHistory s)
      let s3 := toRemove.foldl evictOne s
      { s3 with clipboardHistory := s3.clipboardHistory.take (getMaxHistory s3) }
    else s
  { s2 with persisted := s2.clipboardHistory }

/-- `addToHistory(item)` of the optimized main: an LRU-cache hit returns
early; otherwise the text is processed, the duplicate is removed, the new
entry is prepended, the caches are updated, the history is trimmed to
capacity and persisted. -/
def addToHistory (c : Codecs) (now : Nat) (item : ClipItem) (s : AppState) : AppState :=
  let key := cacheKeyOf item
  let got := lruGet now key s.clipboardCache
  let s0 := { s with clipboardCache := got.2 }
  match got.1 with
  | some _ => s0
  | none =>
    match item with
    | .textItem t =>
      let processedText := processText c t
      let s1 := removeDuplicateText t s0
      let newItem := HistItem.text processedText now
      let s2 := { s1 with clipboardHistory := newItem :: s1.clipboardHistory }
      let setRes := lruSet now key newItem s2.clipboardCache
      let s3 := deleteFiles setRes.2 { s2 with clipboardCache := setRes.1 }
      let s4 := { s3 with textCache := setAdd (.str t) s3.textCache }
      trimAndPersist s4
    | .imageItem id fp w hgt tp sig =>
      let s1 := removeDuplicateImage w hgt sig s0
      let newItem := HistItem.image id fp w hgt tp sig now
      let s2 := { s1 with clipboardHistory := newItem :: s1.clipboardHistory }
      let setRes := lruSet now key newItem s2.clipboardCache
      let s3 := deleteFiles setRes.2 { s2 with clipboardCache := setRes.1 }
      let s4 := if sig ≠ [] then { s3 with imageCache := setAdd sig s3.imageCache } else s3
      trimAndPersist s4

/-- One step of `rebuildCaches`: record the entry's stored text value or
truthy signature. -/
def cacheRebuildStep (st : AppState) (i : HistItem) : AppState :=
  match i with
  | .text tv _ => { st with textCache := setAdd tv st.textCache }
  | .image _ _ _ _ _ sig _ =>
    if sig ≠ [] then { st with imageCache := setAdd sig st.imageCache } else st

/-- `rebuildCaches()`: clear both duplicate-detection sets and refill them
from the stored entries (note: with the *stored* text values). -/
def rebuildCaches (s : AppState) : AppState :=
  s.clipboardHistory.foldl cacheRebuildStep { s with textCache := [], imageCache := [] }

/-- `loadHistory()` at startup: read the persisted history, apply the text
size migration, and rebuild the duplicate-detection caches.  The LRU
cache starts empty in the new process.  (The `thumbDataUrl` migration
branch concerns a legacy entry shape this program never writes and is not
representable in `HistItem`.) -/
def loadHistory (saved : List HistItem) (maxHistory : Nat) (files : List JSStr) : AppState :=
  let hist := saved.map fun i => match i with
    | .text (.str t) ts =>
      if MAX_TEXT_SIZE < t.length then .text (.str (truncateText t)) ts else i
    | _ => i
  rebuildCaches
    { clipboardHistory := hist, textCache := [], imageCache := []
      clipboardCache := emptyLRU 30, maxHistory := maxHistory
      lastMemoryCleanup := 0, files := files, deletionLog := [], persisted := hist }

/-- Unlink the image files of one entry (used by the clear handler and
the cleanup trim). -/
def releaseFilesOf (st : AppState) (i : HistItem) : AppState :=
  deleteFiles (imageFilesOf i) st

/-- The `clear-history` IPC handler: unlink every entry's files, empty the
history, clear all three caches (the LRU clear unlinks its cached image
files again, quietly), and delete the persisted copy. -/
def clearHistory (s : AppState) : AppState :=
  let s1 := s.clipboardHistory.foldl releaseFilesOf s
  let s2 := { s1 with clipboardHistory := [], textCache := [], imageCache := [] }
  let cleared := lruClear s2.clipboardCache
  let s3 := deleteFiles cleared.2 { s2 with clipboardCache := cleared.1 }
  { s3 with persisted := [] }

/-- The per-evicted-item cleanup of the `update-settings` trim: unlink
only the full-resolution file of an image. -/
def settingsEvict (st : AppState) (i : HistItem) : AppState :=
  match i with
  | .image _ fp _ _ _ _ _ => if fp ≠ [] then deleteFileQuiet fp st else st
  | _ => st

/-- The history-trimming tail of the `update-settings` IPC handler, after
`settings.maxHistory` changed: evict past the new capacity — unlinking
only `filePath` of evicted images, not `thumbPath`. -/
def updateSettingsMaxHistory (n : Nat) (s : AppState) : AppState :=
  let s1 := { s with maxHistory := n }
  if getMaxHistory s1 < s1.clipboardHistory.length then
    let toRemove := s1.clipboardHistory.drop (getMaxHistory s1)
    let s2 := toRemove.foldl settingsEvict s1
    { s2 with clipboardHistory := s2.clipboardHistory.take (getMaxHistory s2) }
  else s1

/-- One step of the orphan sweep: keep files referenced by a live image
entry, unlink the rest. -/
def orphanSweepStep (live : List HistItem) (st : AppState) (f : JSStr) : AppState :=
  if live.any (fun i => match i with
    | .image _ fp _ _ tp _ _ => decide (f = fp ∨ f = tp)
    | _ => false)
  then st else deleteFileQuiet f st

/-- `cleanupOrphanedImageFiles()`: unlink every file of the image
directory not referenced by a live entry.  (The `item.id === fileId`
clause of the source compares against the basename stem of `filePath`,
which the same entry's `filePath` clause already covers.) -/
def cleanupOrphanedImageFiles (s : AppState) : AppState :=
  s.files.foldl (orphanSweepStep s.clipboardHistory) s

/-- The body of `performMemoryCleanup` past the cooldown guard: stamp the
cooldown, sweep orphans when aggressive, trim the history to
`MAX_HISTORY_SIZE` by splicing from the front, and rebuild the caches. -/
def memoryCleanupBody (aggressive : Bool) (now : Nat) (s : AppState) : AppState :=
  let s1 := { s with lastMemoryCleanup := now }
  let s2 := if aggressive then cleanupOrphanedImageFiles s1 else s1
  let s3 :=
    if MAX_HISTORY_SIZE < s2.clipboardHistory.length then
      let excess := s2.clipboardHistory.length - MAX_HISTORY_SIZE
      let removed := s2.clipboardHistory.take excess
      let s4 := removed.foldl releaseFilesOf s2
      { s4 with clipboardHistory := s4.clipboardHistory.drop excess }
    else s2
  rebuildCaches s3

/-- `performMemoryCleanup(aggressive)`: a non-aggressive call within the
cooldown window returns before touching any state; otherwise the cleanup
body runs. -/
def performMemoryCleanup (aggressive : Bool) (now : Nat) (s : AppState) : AppState :=
  if now - s.lastMemoryCleanup < MEMORY_CLEANUP_COOLDOWN ∧ aggressive = false then s
  else memoryCleanupBody aggressive now s

/-- The public operations of the store (spec §6), as the code implements
them: the two insert paths of the monitor, the clear handler, the
capacity change of the settings handler, and the governor's cleanup. -/
inductive Op where
  | opInsertText (now : Nat) (t : JSStr)
  | opInsertImage (now : Nat) (id filePath : JSStr) (width height : Nat)
      (thumbPath signature : JSStr)
  | opClear
  | opSetMaxHistory (n : Nat)
  | opMemCleanup (aggressive : Bool) (now : Nat)

/-- Apply one public operation. -/
def applyOp (c : Codecs) (s : AppState) : Op → AppState
  | .opInsertText now t => addToHistory c now (.textItem t) s
  | .opInsertImage now id fp w h tp sig => addToHistory c now (.imageItem id fp w h tp sig) s
  | .opClear => clearHistory s
  | .opSetMaxHistory n => updateSettingsMaxHistory n s
  | .opMemCleanup aggressive now => performMemoryCleanup aggressive now s

/-- Run a sequence of public operations from first launch. -/
def runOps (c : Codecs) (ops : List Op) : AppState :=
  ops.foldl (applyOp c) initState

/-- Two history entries with equal content in the sense of the
deduplication invariant: equal stored text, or equal image signature. -/
def sameEntryContent : HistItem → HistItem → Bool
  | .text tv _, .text tv2 _ => decide (tv = tv2)
  | .image _ _ _ _ _ sig _, .image _ _ _ _ _ sig2 _ => decide (sig = sig2)
  | _, _ => false

/-- Whether some two entries of the history share their content. -/
def dupExists : List HistItem → Bool
  | [] => false
  | i :: rest => rest.any (sameEntryContent i) || dupExists rest

/-- Concrete total codecs for witnesses and counterexamples: identity
UTF-8 and base64, and a deflate that prepends one byte (so that its
output, like real deflate output, is never empty). -/
def trivCodecs : Codecs :=
  { utf8Encode := id, utf8Decode := id
    deflate := fun b => 0 :: b, inflate := fun b => b.drop 1
    b64Encode := id, b64Decode := id }

/-- 101 code units: one hundred times 'a' then '1'. -/
def c4t1 : JSStr := List.replicate 100 97 ++ [49]

/-- 101 code units: one hundred times 'a' then '2' — same length and same
first 100 units as `c4t1`. -/
def c4t2 : JSStr := List.replicate 100 97 ++ [50]

/-- 17 bytes: sixteen zero bytes then 1. -/
def c4b1 : List Nat := List.replicate 16 0 ++ [1]

/-- 17 bytes: sixteen zero bytes then 2 — same length and same first 16
bytes as `c4b1`. -/
def c4b2 : List Nat := List.replicate 16 0 ++ [2]

/-- A reachable state with capacity 2: a text entry at the head and an
image entry (files `[10]` and `[11]` on disk) at the tail. -/
def c5state : AppState :=
  { clipboardHistory :=
      [HistItem.text (.str [97]) 5, HistItem.image [1] [10] 4 4 [11] (strU "image:4x4") 3]
    textCache := [.str [97]], imageCache := [strU "image:4x4"]
    clipboardCache := emptyLRU 30, maxHistory := 2, lastMemoryCleanup := 0
    files := [[10], [11]], deletionLog := []
    persisted :=
      [HistItem.text (.str [97]) 5, HistItem.image [1] [10] 4 4 [11] (strU "image:4x4") 3] }

/-- Trace for re-insertion: insert "a", then "b". -/
def c3sA : AppState := addToHistory trivCodecs 1 (.textItem [97]) initState

/-- Second step of the re-insertion trace. -/
def c3sB : AppState := addToHistory trivCodecs 2 (.textItem [98]) c3sA

/-- Third step: insert "a" again — its key is still in the LRU cache. -/
def c3sC : AppState := addToHistory trivCodecs 3 (.textItem [97]) c3sB

/-- A 10000-unit text, above the compression threshold. -/
def c2text : JSStr := List.replicate 10000 97

/-- Insert the large text in a first session. -/
def c2sA : AppState := addToHistory trivCodecs 1 (.textItem c2text) initState

/-- Restart: load the persisted history of the first session (the stored
entry holds the compressed blob, and `rebuildCaches` fills `textCache`
with that blob, not with the raw text). -/
def c2sB : AppState := loadHistory c2sA.persisted DEFAULT_MAX_HISTORY c2sA.files

/-- Copy the same large text again after the restart. -/
def c2sC : AppState := addToHistory trivCodecs 2 (.textItem c2text) c2sB

/-- The compressed blob the trivial codecs produce for the large text. -/
def c2blob : TextVal := .blob ⟨true, 0 :: c2text, 10000, 10001⟩

/-- The state after the restart, written out. -/
def c2sBval : AppState :=
  { clipboardHistory := [HistItem.text c2blob 1], textCache := [c2blob], imageCache := []
    clipboardCache := emptyLRU 30, maxHistory := 20, lastMemoryCleanup := 0
    files := [], deletionLog := [], persisted := [HistItem.text c2blob 1] }

/-- A small state whose history holds the text "a", with its key absent
from the LRU cache (as after a restart). -/
def c3wState : AppState :=
  { clipboardHistory := [HistItem.text (.str [97]) 1], textCache := [.str [97]]
    imageCache := [], clipboardCache := emptyLRU 30, maxHistory := 20
    lastMemoryCleanup := 0, files := [], deletionLog := []
    persisted := [HistItem.text (.str [97]) 1] }

/-! ## Theorems -/

/-! ### Frame lemmas: which fields each state transformer leaves alone -/

/-- Unlinking a file never touches the history. -/
theorem deleteFileQuiet_history (fp : JSStr) (s : AppState) :
    (deleteFileQuiet fp s).clipboardHistory = s.clipboardHistory := by
  unfold deleteFileQuiet
  split <;> rfl

/-- Unlinking a file never touches the capacity setting. -/
theorem deleteFileQuiet_maxHistory (fp : JSStr) (s : AppState) :
    (deleteFileQuiet fp s).maxHistory = s.maxHistory := by
  unfold deleteFileQuiet
  split <;> rfl

/-- Unlinking a file never touches the text cache. -/
theorem deleteFileQuiet_textCache (fp : JSStr) (s : AppState) :
    (deleteFileQuiet fp s).textCache = s.textCache := by
  unfold deleteFileQuiet
  split <;> rfl

/-- Unlinking a file never touches the image cache. -/
theorem deleteFileQuiet_imageCache (fp : JSStr) (s : AppState) :
    (deleteFileQuiet fp s).imageCache = s.imageCache := by
  unfold deleteFileQuiet
  split <;> rfl

/-- Unlinking a file never touches the LRU cache. -/
theorem deleteFileQuiet_clipboardCache (fp : JSStr) (s : AppState) :
    (deleteFileQuiet fp s).clipboardCache = s.clipboardCache := by
  unfold deleteFileQuiet
  split <;> rfl

/-- Unlinking a list of files never touches the history. -/
theorem deleteFiles_history (fps : List JSStr) (s : AppState) :
    (deleteFiles fps s).clipboardHistory = s.clipboardHistory := by
  induction fps generalizing s with
  | nil => rfl
  | cons f fs ih =>
    show (deleteFiles fs (deleteFileQuiet f s)).clipboardHistory = _
    rw [ih, deleteFileQuiet_history]

/-- Unlinking a list of files never touches the capacity setting. -/
theorem deleteFiles_maxHistory (fps : List JSStr) (s : AppState) :
    (deleteFiles fps s).maxHistory = s.maxHistory := by
  induction fps generalizing s with
  | nil => rfl
  | cons f fs ih =>
    show (deleteFiles fs (deleteFileQuiet f s)).maxHistory = _
    rw [ih, deleteFileQuiet_maxHistory]

/-- Unlinking a list of files never touches the text cache. -/
theorem deleteFiles_textCache (fps : List JSStr) (s : AppState) :
    (deleteFiles fps s).textCache = s.textCache := by
  induction fps generalizing s with
  | nil => rfl
  | cons f fs ih =>
    show (deleteFiles fs (deleteFileQuiet f s)).textCache = _
    rw [ih, deleteFileQuiet_textCache]

/-- Unlinking a list of files never touches the LRU cache. -/
theorem deleteFiles_clipboardCache (fps : List JSStr) (s : AppState) :
    (deleteFiles fps s).clipboardCache = s.clipboardCache := by
  induction fps generalizing s with
  | nil => rfl
  | cons f fs ih =>
    show (deleteFiles fs (deleteFileQuiet f s)).clipboardCache = _
    rw [ih, deleteFileQuiet_clipboardCache]

/-- The per-entry eviction cleanup never touches the history. -/
theorem evictOne_history (s : AppState) (i : HistItem) :
    (evictOne s i).clipboardHistory = s.clipboardHistory := by
  cases i with
  | text tv ts => rfl
  | image id fp w h tp sig ts =>
    simp only [evictOne]
    split_ifs <;>
      simp only [deleteFileQuiet_history]

/-- The per-entry eviction cleanup never touches the capacity setting. -/
theorem evictOne_maxHistory (s : AppState) (i : HistItem) :
    (evictOne s i).maxHistory = s.maxHistory := by
  cases i with
  | text tv ts => rfl
  | image id fp w h tp sig ts =>
    simp only [evictOne]
    split_ifs <;>
      simp only [deleteFileQuiet_maxHistory]

/-- Folding the eviction cleanup never touches the history. -/
theorem foldl_evictOne_history (l : List HistItem) (s : AppState) :
    (l.foldl evictOne s).clipboardHistory = s.clipboardHistory := by
  induction l generalizing s with
  | nil => rfl
  | cons i rest ih =>
    show (rest.foldl evictOne (evictOne s i)).clipboardHistory = _
    rw [ih, evictOne_history]

/-- Folding the eviction cleanup never touches the capacity setting. -/
theorem foldl_evictOne_maxHistory (l : List HistItem) (s : AppState) :
    (l.foldl evictOne s).maxHistory = s.maxHistory := by
  induction l generalizing s with
  | nil => rfl
  | cons i rest ih =>
    show (rest.foldl evictOne (evictOne s i)).maxHistory = _
    rw [ih, evictOne_maxHistory]

/-- The capacity setting survives the final trim of `addToHistory`. -/
theorem trimAndPersist_maxHistory (s : AppState) :
    (trimAndPersist s).maxHistory = s.maxHistory := by
  unfold trimAndPersist
  split
  · simp only [foldl_evictOne_maxHistory]
  · rfl

/-- After the final trim of `addToHistory`, the history length is within
the configured capacity, whatever the state before. -/
theorem trimAndPersist_length_le (s : AppState) :
    (trimAndPersist s).clipboardHistory.length ≤ getMaxHistory (trimAndPersist s) := by
  have hmax : getMaxHistory (trimAndPersist s) = getMaxHistory s := by
    unfold getMaxHistory
    rw [trimAndPersist_maxHistory]
  rw [hmax]
  unfold trimAndPersist
  split
  · rename_i hgt
    simp only [foldl_evictOne_history, foldl_evictOne_maxHistory, List.length_take]
    have : getMaxHistory { s with
        clipboardHistory := s.clipboardHistory,
        maxHistory := s.maxHistory } = getMaxHistory s := rfl
    simp only [getMaxHistory, foldl_evictOne_maxHistory]
    omega
  · rename_i hle
    simpa using Nat.le_of_not_lt hle

/-- When the history already fits the capacity, the final trim of
`addToHistory` only persists it. -/
theorem trimAndPersist_of_le (s : AppState)
    (h : s.clipboardHistory.length ≤ getMaxHistory s) :
    trimAndPersist s = { s with persisted := s.clipboardHistory } := by
  unfold trimAndPersist
  rw [if_neg (by omega)]

/-- With a cache miss, `addToHistory` on a text item runs the full insert
path: duplicate removal, prepend, cache updates, trim and persist. -/
theorem addToHistory_text_of_miss (c : Codecs) (now : Nat) (t : JSStr) (s : AppState)
    (hnone : assocGet (.textKey (t.take 100)) s.clipboardCache.cache = none) :
    addToHistory c now (.textItem t) s =
      (let s1 := removeDuplicateText t s
       let newItem := HistItem.text (processText c t) now
       let s2 := { s1 with clipboardHistory := newItem :: s1.clipboardHistory }
       let setRes := lruSet now (.textKey (t.take 100)) newItem s2.clipboardCache
       let s3 := deleteFiles setRes.2 { s2 with clipboardCache := setRes.1 }
       let s4 := { s3 with textCache := setAdd (.str t) s3.textCache }
       trimAndPersist s4) := by
  unfold addToHistory
  simp only [cacheKeyOf, lruGet, hnone]

/-- The large text has length 10000. -/
theorem c2text_length : c2text.length = 10000 := by
  unfold c2text
  exact List.length_replicate 10000 97

/-- The large text is not empty. -/
theorem c2text_ne_nil : c2text ≠ [] := by
  intro h
  have h2 := c2text_length
  rw [h] at h2
  simp at h2

/-- The large text is below the truncation limit, so it passes through. -/
theorem c2trunc : truncateText c2text = c2text := by
  unfold truncateText
  rw [if_pos (by rw [c2text_length]; decide)]

/-- The large text is at the compression threshold, so it is compressed
into the blob object. -/
theorem c2comp : compressText trivCodecs c2text = c2blob := by
  unfold compressText
  rw [if_neg (fun h => h.elim c2text_ne_nil
    (fun h2 => by rw [c2text_length] at h2; exact absurd h2 (by decide)))]
  simp [trivCodecs, c2blob, c2text_length]

/-- Processing the large text stores the compressed blob. -/
theorem c2proc : processText trivCodecs c2text = c2blob := by
  unfold processText
  rw [if_neg c2text_ne_nil, c2trunc, c2comp]

/-- After the first session's insert, the persisted history holds the
blob entry and no image files exist. -/
theorem c2sA_proj : c2sA.persisted = [HistItem.text c2blob 1] ∧ c2sA.files = [] := by
  unfold c2sA
  rw [addToHistory_text_of_miss trivCodecs 1 c2text initState rfl]
  simp only [c2proc]
  constructor <;>
    simp [removeDuplicateText, initState, lruSet, assocGet, emptyLRU, setAdd,
      deleteFiles, trimAndPersist, getMaxHistory, DEFAULT_MAX_HISTORY]

/-- Loading the persisted history rebuilds `textCache` with the stored
blob — not with the raw text — and starts an empty LRU cache. -/
theorem c2sB_eq : c2sB = c2sBval := by
  unfold c2sB
  rw [c2sA_proj.1, c2sA_proj.2]
  simp [loadHistory, rebuildCaches, cacheRebuildStep, setAdd, DEFAULT_MAX_HISTORY, c2blob, c2sBval]

/-- Re-inserting the identical large text after the restart misses both
the LRU cache and the text cache (raw string versus stored blob), so no
duplicate is removed and a second entry with the same content lands in
the history. -/
theorem c2sC_hist :
    c2sC.clipboardHistory = [HistItem.text c2blob 2, HistItem.text c2blob 1] := by
  unfold c2sC
  rw [c2sB_eq]
  rw [addToHistory_text_of_miss trivCodecs 2 c2text c2sBval rfl]
  simp only [c2proc]
  simp [removeDuplicateText, lruSet, assocGet, emptyLRU, setAdd, deleteFiles,
    trimAndPersist, getMaxHistory, c2blob, c2sBval]

/-- C2 fails on the code: after inserting a 10000-unit text, restarting,
and inserting the identical text again, the history holds two live text
entries with equal stored content (the same compressed blob), violating
the at-most-one-entry-per-signature invariant.  The deduplication misses
because `removeDuplicateText` compares the raw string against the stored
compressed object. -/
theorem claim_C2 :
    c2sC.clipboardHistory = [HistItem.text c2blob 2, HistItem.text c2blob 1] ∧
    dupExists c2sC.clipboardHistory = true :=
  ⟨c2sC_hist, by rw [c2sC_hist]; simp [dupExists, sameEntryContent]⟩

/-- C10: `decompressText` is the identity on every plain-string input, so
text stored uncompressed is presented verbatim. -/
theorem claim_C10 (c : Codecs) (s : JSStr) : decompressText c (.str s) = .str s := rfl

/-- C9: a non-aggressive memory cleanup inside the cooldown window is a
no-op that changes no state, while an aggressive cleanup always runs the
cleanup body, cooldown or not. -/
theorem claim_C9 (s : AppState) (now : Nat) :
    (now - s.lastMemoryCleanup < MEMORY_CLEANUP_COOLDOWN →
      performMemoryCleanup false now s = s) ∧
    performMemoryCleanup true now s = memoryCleanupBody true now s := by
  constructor
  · intro h
    simp [performMemoryCleanup, h]
  · simp [performMemoryCleanup]

/-- Witness for C9 at a concrete state and time inside the cooldown. -/
theorem claim_C9_witness :
    1 - initState.lastMemoryCleanup < MEMORY_CLEANUP_COOLDOWN ∧
    performMemoryCleanup false 1 initState = initState :=
  ⟨by decide, (claim_C9 initState 1).1 (by decide)⟩

/-- C6: decompressing the result of compressing any text yields that text
back, assuming the documented round-trip contracts of the external
codecs (UTF-8, deflate, base64) and that deflate output is never empty
(zlib streams carry a header). -/
theorem claim_C6 (c : Codecs)
    (h64 : ∀ b, c.b64Decode (c.b64Encode b) = b)
    (hzlib : ∀ b, c.inflate (c.deflate b) = b)
    (hutf8 : ∀ t, c.utf8Decode (c.utf8Encode t) = t)
    (hne : ∀ b, c.b64Encode (c.deflate b) ≠ []) (t : JSStr) :
    decompressText c (compressText c t) = .str t := by
  unfold compressText
  split
  · rfl
  · simp only [decompressText]
    rw [if_pos ⟨by trivial, hne (c.utf8Encode t)⟩, h64, hzlib, hutf8]

/-- Witness for C6 with the concrete total codecs. -/
theorem claim_C6_witness :
    (∀ b, trivCodecs.inflate (trivCodecs.deflate b) = b) ∧
    (∀ b, trivCodecs.b64Encode (trivCodecs.deflate b) ≠ []) ∧
    decompressText trivCodecs (compressText trivCodecs [97]) = .str [97] :=
  ⟨fun _ => rfl, fun b => List.cons_ne_nil 0 b,
    claim_C6 trivCodecs (fun _ => rfl) (fun _ => rfl) (fun _ => rfl)
      (fun b => List.cons_ne_nil 0 b) [97]⟩

/-- C7: truncation keeps exactly the first `MAX_TEXT_SIZE` code units and
appends the visible marker, so the stored length is the limit plus the
marker length; and `truncateText` is idempotent. -/
theorem claim_C7 (t : JSStr) :
    (MAX_TEXT_SIZE < t.length →
      truncateText t = t.take MAX_TEXT_SIZE ++ TRUNCATION_MARKER ∧
      (truncateText t).length = MAX_TEXT_SIZE + TRUNCATION_MARKER.length) ∧
    truncateText (truncateText t) = truncateText t := by
  constructor
  · intro h
    have hnot : ¬ t.length ≤ MAX_TEXT_SIZE := by omega
    have h1 : truncateText t = t.take MAX_TEXT_SIZE ++ TRUNCATION_MARKER := by
      unfold truncateText
      rw [if_neg hnot]
    refine ⟨h1, ?_⟩
    rw [h1, List.length_append, List.length_take]
    omega
  · by_cases h : t.length ≤ MAX_TEXT_SIZE
    · unfold truncateText
      rw [if_pos h, if_pos h]
    · have h1 : truncateText t = t.take MAX_TEXT_SIZE ++ TRUNCATION_MARKER := by
        unfold truncateText
        rw [if_neg h]
      have hmk : 0 < TRUNCATION_MARKER.length := by decide
      have htk : (t.take MAX_TEXT_SIZE).length = MAX_TEXT_SIZE := by
        rw [List.length_take]
        omega
      rw [h1]
      unfold truncateText
      rw [if_neg (by rw [List.length_append, htk]; omega)]
      congr 1
      calc (t.take MAX_TEXT_SIZE ++ TRUNCATION_MARKER).take MAX_TEXT_SIZE
          = (t.take MAX_TEXT_SIZE ++ TRUNCATION_MARKER).take (t.take MAX_TEXT_SIZE).length := by
            rw [htk]
        _ = t.take MAX_TEXT_SIZE := List.take_left _ _

/-- Witness for C7 on a text twice the truncation limit. -/
theorem claim_C7_witness :
    MAX_TEXT_SIZE < (List.replicate 100000 (97 : Nat)).length ∧
    (truncateText (List.replicate 100000 (97 : Nat))).length =
      MAX_TEXT_SIZE + TRUNCATION_MARKER.length :=
  ⟨by rw [List.length_replicate]; norm_num [MAX_TEXT_SIZE],
    ((claim_C7 (List.replicate 100000 97)).1
      (by rw [List.length_replicate]; norm_num [MAX_TEXT_SIZE])).2⟩

/-- C4 fails on the code: the signatures are prefix fingerprints, not
digests of the full content.  Two distinct texts of equal length agreeing
on their first 100 units share a text signature, and two distinct byte
streams of equal length agreeing on their first 16 bytes share an image
signature. -/
theorem claim_C4_counterexample :
    create_text_signature c4t1 = create_text_signature c4t2 ∧ c4t1 ≠ c4t2 ∧
    create_image_signature 2 2 c4b1 = create_image_signature 2 2 c4b2 ∧ c4b1 ≠ c4b2 := by
  decide

/-- C4 as amended: the text signature depends only on the length and the
first 100 units of the text, and the image signature depends only on the
dimensions, the byte length and the first 16 bytes of the encoded
stream — exactly the length-plus-prefix scheme the claim rules out. -/
theorem claim_C4 :
    (∀ t1 t2 : JSStr, t1.length = t2.length → t1.take 100 = t2.take 100 →
      create_text_signature t1 = create_text_signature t2) ∧
    (∀ (w h : Nat) (b1 b2 : List Nat), b1.length = b2.length → b1.take 16 = b2.take 16 →
      create_image_signature w h b1 = create_image_signature w h b2) := by
  constructor
  · intro t1 t2 hl hp
    simp [create_text_signature, hl, hp]
  · intro w h b1 b2 hl hp
    simp [create_image_signature, bufferHexPrefix, hl, hp]

/-- Witness for the amended C4 at concrete distinct inputs. -/
theorem claim_C4_witness :
    c4t1.length = c4t2.length ∧ c4t1.take 100 = c4t2.take 100 ∧
    create_text_signature c4t1 = create_text_signature c4t2 :=
  ⟨by decide, by decide, claim_C4.1 c4t1 c4t2 (by decide) (by decide)⟩

/-- A scaled component never exceeds the maximum dimension: helper for
the thumbnail bound. -/
theorem thumb_component_le (a b : Nat) (ha : 0 < a) :
    (round ((a : ℚ) * min ((MAX_THUMBNAIL_SIZE : ℚ) / a) ((MAX_THUMBNAIL_SIZE : ℚ) / b))).toNat ≤
      MAX_THUMBNAIL_SIZE := by
  have ha0 : (0 : ℚ) < (a : ℚ) := by exact_mod_cast ha
  have hq : (a : ℚ) * min ((MAX_THUMBNAIL_SIZE : ℚ) / a) ((MAX_THUMBNAIL_SIZE : ℚ) / b) ≤
      (MAX_THUMBNAIL_SIZE : ℚ) := by
    calc (a : ℚ) * min ((MAX_THUMBNAIL_SIZE : ℚ) / a) ((MAX_THUMBNAIL_SIZE : ℚ) / b)
        ≤ (a : ℚ) * ((MAX_THUMBNAIL_SIZE : ℚ) / a) :=
          mul_le_mul_of_nonneg_left (min_le_left _ _) (le_of_lt ha0)
      _ = (MAX_THUMBNAIL_SIZE : ℚ) := by field_simp
  have hr : round ((a : ℚ) * min ((MAX_THUMBNAIL_SIZE : ℚ) / a) ((MAX_THUMBNAIL_SIZE : ℚ) / b)) ≤
      round ((MAX_THUMBNAIL_SIZE : ℚ)) := by
    rw [round_eq, round_eq]
    exact Int.floor_le_floor (by linarith)
  have hround : round ((MAX_THUMBNAIL_SIZE : ℚ)) = (MAX_THUMBNAIL_SIZE : ℤ) := round_natCast _
  omega

/-- C8: the thumbnail dimension computation agrees with the
specification's scaling rule (a common scale `min(maxDim/w, maxDim/h)`,
applied only when a dimension exceeds the maximum), its results never
exceed the maximum dimension, and a 1000 by 1000 image yields a 150 by
150 thumbnail. -/
theorem claim_C8 :
    (∀ w h : Nat,
      create_optimized_thumbnail_dims w h = spec_thumbnail_dims MAX_THUMBNAIL_SIZE w h) ∧
    (∀ w h : Nat, 0 < w → 0 < h →
      (create_optimized_thumbnail_dims w h).1 ≤ MAX_THUMBNAIL_SIZE ∧
      (create_optimized_thumbnail_dims w h).2 ≤ MAX_THUMBNAIL_SIZE) ∧
    create_optimized_thumbnail_dims 1000 1000 = (150, 150) := by
  refine ⟨fun w h => rfl, fun w h hw hh => ?_, ?_⟩
  · unfold create_optimized_thumbnail_dims
    split
    · constructor
      · exact thumb_component_le w h hw
      · have := thumb_component_le h w hh
        rw [min_comm] at this
        exact this
    · rename_i hc
      push_neg at hc
      exact hc
  · unfold create_optimized_thumbnail_dims
    rw [if_pos (by norm_num [MAX_THUMBNAIL_SIZE])]
    norm_num [MAX_THUMBNAIL_SIZE, min_self]
    decide

/-- Witness for C8 at concrete positive dimensions. -/
theorem claim_C8_witness :
    0 < 640 ∧ 0 < 480 ∧
    (create_optimized_thumbnail_dims 640 480).1 ≤ MAX_THUMBNAIL_SIZE ∧
    (create_optimized_thumbnail_dims 640 480).2 ≤ MAX_THUMBNAIL_SIZE :=
  ⟨by decide, by decide,
    (claim_C8.2.1 640 480 (by decide) (by decide)).1,
    (claim_C8.2.1 640 480 (by decide) (by decide)).2⟩

/-- C5 fails on the code: when reducing the capacity setting evicts an
image entry, only its full-resolution file is unlinked; the thumbnail
file survives on disk and no deletion of it is ever recorded. -/
theorem claim_C5 :
    (updateSettingsMaxHistory 1 c5state).clipboardHistory = [HistItem.text (.str [97]) 5] ∧
    (updateSettingsMaxHistory 1 c5state).deletionLog = [[10]] ∧
    [11] ∈ (updateSettingsMaxHistory 1 c5state).files := by
  decide

/-- C3 fails on the code: after inserting "a" then "b", the state holds
an entry with content "a"; re-inserting "a" leaves the store size
unchanged but changes nothing at all — the entry is not relocated to the
head and its timestamp stays 1 instead of being refreshed to 3, because
the LRU cache still holds its key and `addToHistory` returns early. -/
theorem claim_C3_counterexample :
    c3sB.clipboardHistory =
      [HistItem.text (.str [98]) 2, HistItem.text (.str [97]) 1] ∧
    c3sC.clipboardHistory.length = c3sB.clipboardHistory.length ∧
    c3sC.clipboardHistory = c3sB.clipboardHistory ∧
    ¬ c3sC.clipboardHistory.head? = some (HistItem.text (.str [97]) 3) := by
  decide

/-- C3 as amended: when the content's key hits the LRU cache, the
re-insert leaves both the history (hence its order, timestamps and size)
and the text cache unchanged; when the key misses the LRU cache and the
raw text of an uncompressed stored entry is tracked in the text cache,
the re-insert keeps the store size unchanged and places a fresh entry
with the refreshed timestamp at the head. -/
theorem claim_C3 (c : Codecs) (now : Nat) (s : AppState) (t : JSStr) :
    (∀ e, assocGet (.textKey (t.take 100)) s.clipboardCache.cache = some e →
      (addToHistory c now (.textItem t) s).clipboardHistory = s.clipboardHistory ∧
      (addToHistory c now (.textItem t) s).textCache = s.textCache) ∧
    (∀ i, assocGet (.textKey (t.take 100)) s.clipboardCache.cache = none →
      t ≠ [] → t.length < COMPRESSION_THRESHOLD →
      TextVal.str t ∈ s.textCache →
      s.clipboardHistory.findIdx? (isTextMatch t) = some i →
      s.clipboardHistory.length ≤ getMaxHistory s →
      (addToHistory c now (.textItem t) s).clipboardHistory.length
          = s.clipboardHistory.length ∧
      (addToHistory c now (.textItem t) s).clipboardHistory.head?
          = some (HistItem.text (.str t) now)) := by
  constructor
  · intro e he
    unfold addToHistory
    simp only [cacheKeyOf, lruGet, he]
    exact ⟨trivial, trivial⟩
  · intro i hnone hne hlen hmem hfind hcap
    have hthr : COMPRESSION_THRESHOLD ≤ MAX_TEXT_SIZE := by decide
    have htr : truncateText t = t := by
      unfold truncateText
      rw [if_pos (by omega)]
    have hproc : processText c t = .str t := by
      unfold processText
      rw [if_neg hne]
      unfold compressText
      rw [htr, if_pos (Or.inr hlen)]
    have hi : i < s.clipboardHistory.length :=
      (List.findIdx?_eq_some_iff_findIdx_eq.mp hfind).1
    have hrm : removeDuplicateText t s =
        { s with clipboardHistory := s.clipboardHistory.eraseIdx i,
                 textCache := s.textCache.erase (.str t) } := by
      unfold removeDuplicateText
      rw [if_pos hmem, hfind]
    have herase : (s.clipboardHistory.eraseIdx i).length = s.clipboardHistory.length - 1 := by
      rw [List.length_eraseIdx]
      simp [hi]
    rw [addToHistory_text_of_miss c now t s hnone]
    simp only [hrm, hproc]
    rw [trimAndPersist_of_le _ (by
      simp only [deleteFiles_history, deleteFiles_maxHistory, getMaxHistory,
        List.length_cons, herase]
      simp only [getMaxHistory] at hcap
      omega)]
    constructor
    · simp only [deleteFiles_history, List.length_cons, herase]
      omega
    · simp only [deleteFiles_history, List.head?_cons]

/-- Witness for the amended C3: the cache-hit no-op on the trace state,
and the full relocate-and-refresh on a state whose LRU cache misses. -/
theorem claim_C3_witness :
    TextVal.str [97] ∈ c3wState.textCache ∧
    c3wState.clipboardHistory.findIdx? (isTextMatch [97]) = some 0 ∧
    (addToHistory trivCodecs 9 (.textItem [97]) c3wState).clipboardHistory.head?
        = some (HistItem.text (.str [97]) 9) ∧
    (addToHistory trivCodecs 3 (.textItem [97]) c3sB).clipboardHistory
        = c3sB.clipboardHistory :=
  ⟨by decide, by decide,
    ((claim_C3 trivCodecs 9 c3wState [97]).2 0 (by decide) (by decide) (by decide)
      (by decide) (by decide) (by decide)).2,
    ((claim_C3 trivCodecs 3 c3sB [97]).1 ⟨HistItem.text (.str [97]) 1, 1, 1⟩ (by decide)).1⟩

/-- A fold whose step preserves a projection preserves it overall. -/
theorem foldl_preserves_proj {α β : Type} (g : AppState → β) (f : AppState → α → AppState)
    (hf : ∀ st a, g (f st a) = g st) :
    ∀ (l : List α) (s : AppState), g (l.foldl f s) = g s := by
  intro l
  induction l with
  | nil => intro s; rfl
  | cons a rest ih =>
    intro s
    rw [List.foldl_cons, ih, hf]

/-- Releasing an entry's files never touches the history. -/
theorem releaseFilesOf_history (st : AppState) (i : HistItem) :
    (releaseFilesOf st i).clipboardHistory = st.clipboardHistory := by
  unfold releaseFilesOf
  exact deleteFiles_history _ _

/-- Releasing an entry's files never touches the capacity setting. -/
theorem releaseFilesOf_maxHistory (st : AppState) (i : HistItem) :
    (releaseFilesOf st i).maxHistory = st.maxHistory := by
  unfold releaseFilesOf
  exact deleteFiles_maxHistory _ _

/-- The settings-trim eviction step never touches the history. -/
theorem settingsEvict_history (st : AppState) (i : HistItem) :
    (settingsEvict st i).clipboardHistory = st.clipboardHistory := by
  cases i with
  | text tv ts => rfl
  | image id fp w hgt tp sig ts =>
    simp only [settingsEvict]
    split
    · exact deleteFileQuiet_history _ _
    · rfl

/-- The settings-trim eviction step never touches the capacity setting. -/
theorem settingsEvict_maxHistory (st : AppState) (i : HistItem) :
    (settingsEvict st i).maxHistory = st.maxHistory := by
  cases i with
  | text tv ts => rfl
  | image id fp w hgt tp sig ts =>
    simp only [settingsEvict]
    split
    · exact deleteFileQuiet_maxHistory _ _
    · rfl

/-- The orphan sweep step never touches the history. -/
theorem orphanSweepStep_history (live : List HistItem) (st : AppState) (f : JSStr) :
    (orphanSweepStep live st f).clipboardHistory = st.clipboardHistory := by
  unfold orphanSweepStep
  split
  · rfl
  · exact deleteFileQuiet_history _ _

/-- The orphan sweep step never touches the capacity setting. -/
theorem orphanSweepStep_maxHistory (live : List HistItem) (st : AppState) (f : JSStr) :
    (orphanSweepStep live st f).maxHistory = st.maxHistory := by
  unfold orphanSweepStep
  split
  · rfl
  · exact deleteFileQuiet_maxHistory _ _

/-- The cache rebuild step never touches the history. -/
theorem cacheRebuildStep_history (st : AppState) (i : HistItem) :
    (cacheRebuildStep st i).clipboardHistory = st.clipboardHistory := by
  cases i with
  | text tv ts => rfl
  | image id fp w hgt tp sig ts =>
    simp only [cacheRebuildStep]
    split <;> rfl

/-- The cache rebuild step never touches the capacity setting. -/
theorem cacheRebuildStep_maxHistory (st : AppState) (i : HistItem) :
    (cacheRebuildStep st i).maxHistory = st.maxHistory := by
  cases i with
  | text tv ts => rfl
  | image id fp w hgt tp sig ts =>
    simp only [cacheRebuildStep]
    split <;> rfl

/-- Rebuilding the caches never touches the history. -/
theorem rebuildCaches_history (s : AppState) :
    (rebuildCaches s).clipboardHistory = s.clipboardHistory := by
  unfold rebuildCaches
  rw [foldl_preserves_proj (fun st => st.clipboardHistory) cacheRebuildStep
    cacheRebuildStep_history]

/-- Rebuilding the caches never touches the capacity setting. -/
theorem rebuildCaches_maxHistory (s : AppState) :
    (rebuildCaches s).maxHistory = s.maxHistory := by
  unfold rebuildCaches
  rw [foldl_preserves_proj (fun st => st.maxHistory) cacheRebuildStep
    cacheRebuildStep_maxHistory]

/-- One insert keeps the history within the configured capacity. -/
theorem addToHistory_inv (c : Codecs) (now : Nat) (item : ClipItem) (s : AppState)
    (h : s.clipboardHistory.length ≤ getMaxHistory s) :
    (addToHistory c now item s).clipboardHistory.length
      ≤ getMaxHistory (addToHistory c now item s) := by
  cases item with
  | textItem t =>
    cases hg : assocGet (.textKey (t.take 100)) s.clipboardCache.cache with
    | none =>
      rw [addToHistory_text_of_miss c now t s hg]
      exact trimAndPersist_length_le _
    | some e =>
      unfold addToHistory
      simp only [cacheKeyOf, lruGet, hg]
      simpa [getMaxHistory] using h
  | imageItem id fp w hgt tp sig =>
    cases hg : assocGet (.imageKey sig) s.clipboardCache.cache with
    | none =>
      unfold addToHistory
      simp only [cacheKeyOf, lruGet, hg]
      exact trimAndPersist_length_le _
    | some e =>
      unfold addToHistory
      simp only [cacheKeyOf, lruGet, hg]
      simpa [getMaxHistory] using h

/-- The clear handler empties the history. -/
theorem clearHistory_history (s : AppState) : (clearHistory s).clipboardHistory = [] := by
  unfold clearHistory
  simp [deleteFiles_history]

/-- A capacity change trims the history back within the new capacity. -/
theorem updateSettingsMaxHistory_inv (n : Nat) (s : AppState) :
    (updateSettingsMaxHistory n s).clipboardHistory.length
      ≤ getMaxHistory (updateSettingsMaxHistory n s) := by
  simp only [updateSettingsMaxHistory]
  have hp := foldl_preserves_proj (fun st => st.clipboardHistory) settingsEvict
    settingsEvict_history
  have hm := foldl_preserves_proj (fun st => st.maxHistory) settingsEvict
    settingsEvict_maxHistory
  split
  · rename_i hlt
    simp only [List.length_take, getMaxHistory, hm, hp]
    simp only [getMaxHistory] at hlt
    omega
  · rename_i hge
    simp only [getMaxHistory] at hge ⊢
    omega

/-- A memory cleanup keeps the history within the configured capacity. -/
theorem performMemoryCleanup_inv (aggressive : Bool) (now : Nat) (s : AppState)
    (h : s.clipboardHistory.length ≤ getMaxHistory s) :
    (performMemoryCleanup aggressive now s).clipboardHistory.length
      ≤ getMaxHistory (performMemoryCleanup aggressive now s) := by
  unfold performMemoryCleanup
  split
  · exact h
  · unfold memoryCleanupBody
    have hb : ∀ st : AppState, st.clipboardHistory.length ≤ getMaxHistory st →
        (rebuildCaches st).clipboardHistory.length ≤ getMaxHistory (rebuildCaches st) := by
      intro st hst
      rw [rebuildCaches_history]
      calc st.clipboardHistory.length ≤ getMaxHistory st := hst
        _ = getMaxHistory (rebuildCaches st) := by
          unfold getMaxHistory
          rw [rebuildCaches_maxHistory]
    apply hb
    have horph : ∀ st : AppState, st.clipboardHistory.length ≤ getMaxHistory st →
        (cleanupOrphanedImageFiles st).clipboardHistory.length
          ≤ getMaxHistory (cleanupOrphanedImageFiles st) := by
      intro st hst
      unfold cleanupOrphanedImageFiles
      rw [foldl_preserves_proj (fun st => st.clipboardHistory) _
        (orphanSweepStep_history st.clipboardHistory)]
      calc st.clipboardHistory.length ≤ getMaxHistory st := hst
        _ = _ := by
          unfold getMaxHistory
          rw [foldl_preserves_proj (fun st => st.maxHistory) _
            (orphanSweepStep_maxHistory st.clipboardHistory)]
    have h1 : ({ s with lastMemoryCleanup := now } : AppState).clipboardHistory.length
        ≤ getMaxHistory { s with lastMemoryCleanup := now } := by
      simpa [getMaxHistory] using h
    set s1 : AppState := { s with lastMemoryCleanup := now } with hs1
    have h2 : (if aggressive then cleanupOrphanedImageFiles s1 else s1).clipboardHistory.length
        ≤ getMaxHistory (if aggressive then cleanupOrphanedImageFiles s1 else s1) := by
      split
      · exact horph s1 h1
      · exact h1
    set s2 : AppState := if aggressive then cleanupOrphanedImageFiles s1 else s1 with hs2
    split
    · rename_i hbig
      have hpr := foldl_preserves_proj (fun st => st.clipboardHistory) releaseFilesOf
        releaseFilesOf_history
      have hpm := foldl_preserves_proj (fun st => st.maxHistory) releaseFilesOf
        releaseFilesOf_maxHistory
      simp only [List.length_drop, getMaxHistory, hpr, hpm]
      simp only [getMaxHistory] at h2
      omega
    · exact h2

/-- Every public operation preserves the capacity invariant. -/
theorem applyOp_inv (c : Codecs) (s : AppState) (op : Op)
    (h : s.clipboardHistory.length ≤ getMaxHistory s) :
    (applyOp c s op).clipboardHistory.length ≤ getMaxHistory (applyOp c s op) := by
  cases op with
  | opInsertText now t => exact addToHistory_inv c now (.textItem t) s h
  | opInsertImage now id fp w hgt tp sig =>
    exact addToHistory_inv c now (.imageItem id fp w hgt tp sig) s h
  | opClear =>
    show (clearHistory s).clipboardHistory.length ≤ _
    rw [clearHistory_history]
    exact Nat.zero_le _
  | opSetMaxHistory n => exact updateSettingsMaxHistory_inv n s
  | opMemCleanup aggressive now => exact performMemoryCleanup_inv aggressive now s h

/-- C1: for every sequence of public operations from first launch — text
and image inserts, clear, capacity changes and memory cleanups — the
history length is within the configured capacity after every operation
completes. -/
theorem claim_C1 (c : Codecs) (ops : List Op) :
    (runOps c ops).clipboardHistory.length ≤ getMaxHistory (runOps c ops) := by
  suffices hgen : ∀ (s : AppState), s.clipboardHistory.length ≤ getMaxHistory s →
      (ops.foldl (applyOp c) s).clipboardHistory.length
        ≤ getMaxHistory (ops.foldl (applyOp c) s) by
    exact hgen initState (by decide)
  induction ops with
  | nil => intro s hs; exact hs
  | cons op rest ih =>
    intro s hs
    rw [List.foldl_cons]
    exact ih _ (applyOp_inv c s op hs)

end MinimalClipboard
